import Mathlib

/-!
Verification development for the NX-OS POAP provisioning script
(`hack/dnsmasq/nxos.py` of ironcore-dev/network-operator).

The script is embedded shallowly:

* pure helpers (`to_posix_path`, the base64 remapping of
  `generate_type8_password`, the boot-config predicate of `main`) become
  Lean functions operating on `String` / `List Char` / `List Nat` (bytes);
* the stateful orchestration of `main` (download, checksum retry,
  configuration, persistence, reload) becomes a function from an
  environment of oracles (file presence, network transfer outcomes,
  device-reported checksums, device command results) to a trace of
  events plus an outcome (`ok` / `exit1`);
* external collaborators (`requests`, the `cli`/`clid` command facility,
  `hashlib.pbkdf2_hmac`, `os.urandom`) are oracle parameters: the script
  treats them as opaque primitives, so the embedding does too.

Python exceptions are modelled as explicit result values: a function that
can raise returns an `Option`/result type, and an exception that the
script leaves uncaught is an `exit1` outcome (the `__main__` wrapper
catches every exception and calls `exit(1)`).
-/

set_option autoImplicit false

namespace Nxos

/-! ### Generic list helpers (self-contained stand-ins for Python string ops) -/

/-- Split a character list at a separator, like Python `str.split(sep)`:
`splitChar '/' "a//b" = ["a", "", "b"]` and the empty string yields `[""]`. -/
def splitChar (sep : Char) : List Char → List (List Char)
  | [] => [[]]
  | c :: rest =>
    match splitChar sep rest with
    | [] => if c == sep then [[], []] else [[c]]
    | s :: ss => if c == sep then [] :: s :: ss else (c :: s) :: ss

/-- Split a string on `/`, mirroring Python `path.split("/")`. -/
def splitOnSlash (s : String) : List String :=
  (splitChar '/' s.toList).map String.mk

/-- Join a list of strings with `/`, mirroring Python `"/".join(...)`. -/
def joinSlash : List String → String
  | [] => ""
  | [x] => x
  | x :: xs => x ++ "/" ++ joinSlash xs

/-- Remove every colon from a string, mirroring `s.replace(":", "")`
as the script applies it to a volume label. -/
def stripColon (s : String) : String :=
  String.mk (s.toList.filter (fun c => c ≠ ':'))

/-- Last `/`-separated component of a path, mirroring `os.path.basename`
for the URL strings the script feeds it. -/
def basename (s : String) : String :=
  (splitOnSlash s).getLastD ""

/-- Whether `pre` is a prefix of `l` (Boolean, over characters). -/
def listPre : List Char → List Char → Bool
  | [], _ => true
  | _ :: _, [] => false
  | a :: rest, b :: bs => a == b && listPre rest bs

/-- Whether `pat` occurs as a contiguous substring of `l`. -/
def containsAux (pat : List Char) : List Char → Bool
  | [] => listPre pat []
  | c :: rest => listPre pat (c :: rest) || containsAux pat rest

/-- Python `pat in s` substring test. -/
def strContains (s pat : String) : Bool :=
  containsAux pat.toList s.toList

/-! ### Path translator (`to_posix_path`, nxos.py lines 73-84)

The Python function raises `ValueError` (the spec calls this condition
`InvalidPathError`) on an unrecognized first segment; here that is `none`. -/

/-- Volume labels recognized by `to_posix_path` (nxos.py line 77). -/
def volumeLabels : List String :=
  ["bootflash:", "flash:", "nvram:", "usb2:", "usb1:"]

/-- Embedding of `to_posix_path` (nxos.py lines 73-84): split on `/`,
require the first token to be a recognized volume label, emit
`/<label-without-colon>` followed by the non-empty remaining tokens,
re-joined with `/`.  `none` models the raised `ValueError`. -/
def to_posix_path (path : String) : Option String :=
  match splitOnSlash path with
  | [] => none
  | t0 :: rest =>
    if t0 ∈ volumeLabels then
      some (joinSlash (("/" ++ stripColon t0) :: rest.filter (fun t => t ≠ "")))
    else none

/-! ### Password hash utility (`generate_type8_password`, nxos.py lines 20-48)

Bytes are `Nat`s (< 256 for real inputs).  `hashlib.pbkdf2_hmac` and
`os.urandom` are oracle parameters: the script calls them as black boxes. -/

/-- Standard base64 alphabet (nxos.py line 36). -/
def std_b64chars : List Char :=
  "ABCDEFGHIJKLMNOPQRSTUVWXYZabcdefghijklmnopqrstuvwxyz0123456789+/".toList

/-- Cisco's remapped base64 alphabet (nxos.py line 37). -/
def cisco_b64chars : List Char :=
  "./0123456789ABCDEFGHIJKLMNOPQRSTUVWXYZabcdefghijklmnopqrstuvwxyz".toList

/-- Character of the standard base64 alphabet at 6-bit index `n`
(indices produced by the encoder are always < 64; `% 64` keeps the
function total without changing those values). -/
def stdChar (n : Nat) : Char :=
  std_b64chars.getD (n % 64) 'A'

/-- RFC 4648 base64 of a byte list, as `base64.b64encode` computes it:
6-bit groups from 3-byte blocks, `=`-padded to a multiple of 4 chars. -/
def b64encode : List Nat → List Char
  | [] => []
  | [a] => [stdChar (a / 4), stdChar (a % 4 * 16), '=', '=']
  | [a, b] => [stdChar (a / 4), stdChar (a % 4 * 16 + b / 16), stdChar (b % 16 * 4), '=']
  | a :: b :: c :: rest =>
    stdChar (a / 4) :: stdChar (a % 4 * 16 + b / 16) ::
      stdChar (b % 16 * 4 + c / 64) :: stdChar (c % 64) :: b64encode rest

/-- First index of `c` in a character list, `none` if absent. -/
def posIn (c : Char) : List Char → Option Nat
  | [] => none
  | x :: xs => if x == c then some 0 else (posIn c xs).map (· + 1)

/-- The `str.maketrans(std_b64chars, cisco_b64chars)` table applied to one
character: a character of the standard alphabet maps to the Cisco
character at the same position, anything else is unchanged. -/
def b64translate (c : Char) : Char :=
  match posIn c std_b64chars with
  | some i => cisco_b64chars.getD i c
  | none => c

/-- Python `s.rstrip('=')` on a character list. -/
def rstripEq (l : List Char) : List Char :=
  (l.reverse.dropWhile (fun c => c == '=')).reverse

/-- Embedding of the inner `to_cisco_base64` (nxos.py lines 40-43):
standard base64, remapped through the translation table, with trailing
`=` stripped. -/
def to_cisco_base64 (data : List Nat) : String :=
  String.mk (rstripEq ((b64encode data).map b64translate))

/-- Salt selection of `generate_type8_password` (nxos.py lines 45-46):
`if not salt_bytes: salt_bytes = os.urandom(10)` — Python truthiness, so
both `None` and the empty byte string are replaced by fresh random
bytes (the `urandom` oracle). -/
def effective_salt (salt_bytes : Option (List Nat)) (urandom : List Nat) : List Nat :=
  match salt_bytes with
  | none => urandom
  | some s => if s = [] then urandom else s

/-- Embedding of `generate_type8_password` (nxos.py lines 20-48).
`pbkdf2` is the `hashlib.pbkdf2_hmac('sha256', pw, salt, iterations)`
oracle; `urandom` is the `os.urandom(10)` oracle for the no-salt case. -/
def generate_type8_password (pbkdf2 : String → List Nat → Nat → List Nat)
    (urandom : List Nat) (password : String) (salt_bytes : Option (List Nat)) : String :=
  let salt := effective_salt salt_bytes urandom
  let dk := pbkdf2 password salt 20000
  "$nx-pbkdf2$" ++ to_cisco_base64 salt ++ "$" ++ to_cisco_base64 dk

/-! ### Orchestrator model (`main`, nxos.py lines 164-229)

`main` is modelled from the point where the bootstrap descriptor is
requested.  The run produces a list of `Event`s (the externally visible
actions, in order) and an `Outcome`.  Device commands that the script
does not wrap in a `try` (``configure``, the boot-branch `copy`,
``show boot``) are modelled as succeeding: their failure is an uncaught
exception, fatal and orthogonal to every claim here. -/

/-- Desired image metadata from the bootstrap descriptor. -/
structure ImageConf where
  version : String
  url : String
  md5sum : String
deriving DecidableEq

/-- The image the device booted from (`get_booted_image`). -/
structure RunningImage where
  version : String
  path : String
deriving DecidableEq

/-- Externally visible actions of a provisioning run, in program order. -/
inductive Event where
  | bootstrapFail
  | cleanImages (runningPosix targetPosix : String)
  | transfer (k : Nat)
  | transferFail (k : Nat)
  | checksumQuery (reported expected : String)
  | retryDelete (posixPath : String)
  | bootDecision (b : Bool)
  | setBoot (path : String)
  | copyStartupBoot
  | applyConfig
  | copyStartupOk
  | errCopy (msg : String)
  | warnNoStartup
  | errShowStartup (msg : String)
  | showStartupOk
  | reload
deriving DecidableEq

/-- Process outcome: normal completion or `exit(1)`. -/
inductive Outcome where
  | ok
  | exit1
deriving DecidableEq

/-- Oracles for everything outside the script's own logic. -/
structure Env where
  /-- whether `get_bootstrap_data` succeeds (nxos.py lines 174-179). -/
  bootstrapOk : Bool
  /-- md5 of the target file's current content, `none` if the file is
  absent (`os.path.exists`, nxos.py line 134). -/
  fileMd5 : Option String
  /-- whether the `k`-th network transfer of the image body succeeds. -/
  transferOk : Nat → Bool
  /-- md5 of the content delivered by the `k`-th network transfer. -/
  deliveredMd5 : Nat → String
  /-- error message of the final `copy running-config startup-config`
  (nxos.py line 213), `none` if it succeeds. -/
  copyErr : Option String
  /-- error message of `show startup-config` (nxos.py line 220),
  `none` if it succeeds. -/
  showStartupErr : Option String

/-- Download-engine state: md5 of the target file content (if present)
and how many network transfers have been attempted so far. -/
structure DLState where
  fileMd5 : Option String
  transfers : Nat
deriving DecidableEq

/-- Result of one `download_image` call: success, `ChecksumError`, or a
`requests` transport error. -/
inductive DLResult where
  | ok
  | checksumErr
  | requestErr
deriving DecidableEq

/-- Embedding of `download_image` (nxos.py lines 133-155): if the target
file is absent, perform one network transfer (a transport failure is a
`requestErr`; `raise_for_status` fires before the file is opened, so no
content is recorded); then query the device for the file's md5 and
compare it with the expected checksum, raising `ChecksumError`
(`checksumErr`) on mismatch. -/
def download_image (env : Env) (expected : String) (st : DLState) :
    List Event × DLState × DLResult :=
  match st.fileMd5 with
  | none =>
    if env.transferOk st.transfers then
      let m := env.deliveredMd5 st.transfers
      let st' : DLState := ⟨some m, st.transfers + 1⟩
      if m = expected then
        ([Event.transfer st.transfers, Event.checksumQuery m expected], st', DLResult.ok)
      else
        ([Event.transfer st.transfers, Event.checksumQuery m expected], st', DLResult.checksumErr)
    else
      ([Event.transferFail st.transfers], ⟨none, st.transfers + 1⟩, DLResult.requestErr)
  | some m =>
    if m = expected then
      ([Event.checksumQuery m expected], st, DLResult.ok)
    else
      ([Event.checksumQuery m expected], st, DLResult.checksumErr)

/-- `LOCAL_IMAGE_DIR` (nxos.py line 17). -/
def LOCAL_IMAGE_DIR : String := "bootflash:///"

/-- Target image path derivation (nxos.py line 183):
`f'{LOCAL_IMAGE_DIR}{os.path.basename(bootstrap["image"]["url"])}'`. -/
def targetImagePath (url : String) : String :=
  LOCAL_IMAGE_DIR ++ basename url

/-- Embedding of the `try: download_image ... except ChecksumError`
block of `main` (nxos.py lines 186-196).  Returns the emitted events and
whether the run continues (`false` models `exit(1)` — either the caught
`requests.RequestException`, or an exception from inside the
`ChecksumError` handler reaching the top-level handler).  Note the guard
on line 190 compares the raw, untranslated path strings, while the
deletion on line 192 removes the translated target path. -/
def retryPolicy (env : Env) (image : ImageConf) (target targetPosix runningPath : String) :
    List Event × Bool :=
  match download_image env image.md5sum ⟨env.fileMd5, 0⟩ with
  | (ev1, _, DLResult.ok) => (ev1, true)
  | (ev1, _, DLResult.requestErr) => (ev1, false)
  | (ev1, st1, DLResult.checksumErr) =>
    if target ≠ runningPath then
      match download_image env image.md5sum ⟨none, st1.transfers⟩ with
      | (ev2, _, DLResult.ok) => (ev1 ++ [Event.retryDelete targetPosix] ++ ev2, true)
      | (ev2, _, _) => (ev1 ++ [Event.retryDelete targetPosix] ++ ev2, false)
    else
      (ev1, true)

/-- The boot-config reconciliation predicate of `main`
(nxos.py lines 198-199): the spec's `needs_new_boot_config`. -/
def needs_new_boot_config (running : RunningImage) (targetPath targetVersion : String) : Bool :=
  running.path != targetPath || running.version != targetVersion

/-- Substring the script looks for in the `show startup-config` error
(nxos.py line 223). -/
def noStartupMsg : String := "No startup configuration found"

/-- Embedding of `main` after the download block (nxos.py lines
198-229): boot-config decision and update, configuration lines, the
persistence `copy` (whose failure is `exit(1)` before any reload), and
the `show startup-config` status check (whose failure only logs — a
warning when the message contains `noStartupMsg`, an error otherwise —
before the reload is issued). -/
def postDownload (env : Env) (running : RunningImage) (image : ImageConf)
    (target : String) : List Event × Outcome :=
  let b := needs_new_boot_config running target image.version
  let ev1 := Event.bootDecision b ::
    (if b then [Event.setBoot target, Event.copyStartupBoot] else [])
  let ev2 := ev1 ++ [Event.applyConfig]
  match env.copyErr with
  | some msg => (ev2 ++ [Event.errCopy msg], Outcome.exit1)
  | none =>
    let ev3 := ev2 ++ [Event.copyStartupOk]
    match env.showStartupErr with
    | none => (ev3 ++ [Event.showStartupOk, Event.reload], Outcome.ok)
    | some msg =>
      if strContains msg noStartupMsg then
        (ev3 ++ [Event.warnNoStartup, Event.reload], Outcome.ok)
      else
        (ev3 ++ [Event.errShowStartup msg, Event.reload], Outcome.ok)

/-- Embedding of `main` (nxos.py lines 164-229) from the bootstrap fetch
onward: fetch the descriptor (fatal on failure), derive the target path,
translate both paths (an unrecognized running path raises `ValueError`
at line 184, uncaught, hence `exit1` — the target path, built from
`LOCAL_IMAGE_DIR`, always translates), clean old images, run the
download with the checksum-retry policy, then the post-download phase. -/
def runMain (env : Env) (running : RunningImage) (image : ImageConf) :
    List Event × Outcome :=
  if env.bootstrapOk then
    match to_posix_path running.path, to_posix_path (targetImagePath image.url) with
    | some rp, some tp =>
      match retryPolicy env image (targetImagePath image.url) tp running.path with
      | (ev, true) =>
        (Event.cleanImages rp tp :: ev
            ++ (postDownload env running image (targetImagePath image.url)).1,
          (postDownload env running image (targetImagePath image.url)).2)
      | (ev, false) => (Event.cleanImages rp tp :: ev, Outcome.exit1)
    | _, _ => ([], Outcome.exit1)
  else
    ([Event.bootstrapFail], Outcome.exit1)

/-- Counting predicate: network transfer events. -/
def isTransfer : Event → Bool
  | Event.transfer _ => true
  | _ => false

/-- Counting predicate: boot-config decision events. -/
def isDecision : Event → Bool
  | Event.bootDecision _ => true
  | _ => false

/-- Number of network transfers in a trace. -/
def countTransfers (tr : List Event) : Nat :=
  (tr.filter isTransfer).length

/-- Number of boot-config decision evaluations in a trace. -/
def countDecisions (tr : List Event) : Nat :=
  (tr.filter isDecision).length

/-- Index of the first network transfer in a trace, if any. -/
def firstTransferIdx (tr : List Event) : Option Nat :=
  tr.findIdx? isTransfer

/-- Index of the first boot-config decision in a trace, if any. -/
def firstDecisionIdx (tr : List Event) : Option Nat :=
  tr.findIdx? isDecision

/-! ### Helper lemmas -/

theorem getD_mem : ∀ (l : List Char) (i : Nat) (d : Char), i < l.length → l.getD i d ∈ l
  | [], _, _, h => absurd h (by simp)
  | x :: _, 0, _, _ => List.mem_cons_self x _
  | x :: xs, i + 1, d, h =>
    List.mem_cons_of_mem x (getD_mem xs i d (Nat.lt_of_succ_lt_succ h))

theorem stdChar_mem (n : Nat) : stdChar n ∈ std_b64chars := by
  have hlen : std_b64chars.length = 64 := by decide
  exact getD_mem _ _ _ (by rw [hlen]; exact Nat.mod_lt n (by decide))

theorem posIn_mem_lt : ∀ (l : List Char) (c : Char), c ∈ l →
    ∃ i, posIn c l = some i ∧ i < l.length := by
  intro l
  induction l with
  | nil => intro c hc; cases hc
  | cons x xs ih =>
    intro c hc
    by_cases hx : (x == c) = true
    · exact ⟨0, by simp [posIn, hx], by simp⟩
    · have hcx : c ∈ xs := by
        rcases List.mem_cons.mp hc with h | h
        · exact absurd (by simp [h]) hx
        · exact h
      obtain ⟨i, hi, hlt⟩ := ih c hcx
      refine ⟨i + 1, by simp [posIn, hx, hi], by simp; omega⟩

theorem b64translate_mem (c : Char) (h : c ∈ std_b64chars) :
    b64translate c ∈ cisco_b64chars := by
  obtain ⟨i, hi, hlt⟩ := posIn_mem_lt _ _ h
  unfold b64translate
  rw [hi]
  have hlen : std_b64chars.length = cisco_b64chars.length := by decide
  exact getD_mem _ _ _ (hlen ▸ hlt)

theorem pad_not_mem_cisco : '=' ∉ cisco_b64chars := by decide

theorem b64translate_not_pad (c : Char) (h : c ∈ std_b64chars) : b64translate c ≠ '=' :=
  fun he => pad_not_mem_cisco (he ▸ b64translate_mem c h)

theorem b64translate_pad : b64translate '=' = '=' := by decide

/-- Structure of a base64 encoding: alphabet characters followed by
trailing `=` padding. -/
theorem b64_struct : (data : List Nat) → ∃ body k,
    b64encode data = body ++ List.replicate k '=' ∧ ∀ c ∈ body, c ∈ std_b64chars
  | [] => ⟨[], 0, rfl, by simp⟩
  | [a] =>
    ⟨[stdChar (a / 4), stdChar (a % 4 * 16)], 2, rfl, by
      intro c hc
      simp only [List.mem_cons, List.not_mem_nil, or_false] at hc
      rcases hc with rfl | rfl
      · exact stdChar_mem _
      · exact stdChar_mem _⟩
  | [a, b] =>
    ⟨[stdChar (a / 4), stdChar (a % 4 * 16 + b / 16), stdChar (b % 16 * 4)], 1, rfl, by
      intro c hc
      simp only [List.mem_cons, List.not_mem_nil, or_false] at hc
      rcases hc with rfl | rfl | rfl
      · exact stdChar_mem _
      · exact stdChar_mem _
      · exact stdChar_mem _⟩
  | a :: b :: c :: rest => by
    obtain ⟨body, k, h1, h2⟩ := b64_struct rest
    refine ⟨stdChar (a / 4) :: stdChar (a % 4 * 16 + b / 16) ::
      stdChar (b % 16 * 4 + c / 64) :: stdChar (c % 64) :: body, k, ?_, ?_⟩
    · simp [b64encode, h1]
    · intro x hx
      simp only [List.mem_cons] at hx
      rcases hx with rfl | rfl | rfl | rfl | h
      · exact stdChar_mem _
      · exact stdChar_mem _
      · exact stdChar_mem _
      · exact stdChar_mem _
      · exact h2 x h

theorem dropWhile_rep_append (p : Char → Bool) (a : Char) (hp : p a = true) :
    ∀ (k : Nat) (m : List Char),
      List.dropWhile p (List.replicate k a ++ m) = List.dropWhile p m
  | 0, m => by simp
  | k + 1, m => by
    simp only [List.replicate_succ, List.cons_append, List.dropWhile_cons, hp, if_true]
    exact dropWhile_rep_append p a hp k m

theorem dropWhile_eq_self (p : Char → Bool) (l : List Char)
    (h : ∀ c ∈ l, p c = false) : List.dropWhile p l = l := by
  cases l with
  | nil => rfl
  | cons x xs => simp [List.dropWhile_cons, h x (List.mem_cons_self x xs)]

theorem rstripEq_append_pads (l : List Char) (k : Nat) (h : ∀ c ∈ l, c ≠ '=') :
    rstripEq (l ++ List.replicate k '=') = l := by
  unfold rstripEq
  rw [List.reverse_append, List.reverse_replicate]
  rw [dropWhile_rep_append _ _ (by decide) k l.reverse]
  rw [dropWhile_eq_self _ _ (fun c hc => by
    have := h c (List.mem_reverse.mp hc)
    simpa using this)]
  exact List.reverse_reverse l

/-- Every character the Cisco encoder emits lies in the vendor alphabet. -/
theorem to_cisco_base64_mem (data : List Nat) :
    ∀ c ∈ (to_cisco_base64 data).toList, c ∈ cisco_b64chars := by
  obtain ⟨body, k, h1, h2⟩ := b64_struct data
  intro c hc
  have hne : ∀ c' ∈ body.map b64translate, c' ≠ '=' := by
    intro c' hc'
    obtain ⟨x, hx, rfl⟩ := List.mem_map.mp hc'
    exact b64translate_not_pad x (h2 x hx)
  have heq : (to_cisco_base64 data).toList = body.map b64translate := by
    show rstripEq ((b64encode data).map b64translate) = body.map b64translate
    rw [h1, List.map_append, List.map_replicate, b64translate_pad]
    exact rstripEq_append_pads _ k hne
  rw [heq] at hc
  obtain ⟨x, hx, rfl⟩ := List.mem_map.mp hc
  exact b64translate_mem x (h2 x hx)

theorem joinSlash_slash_head (l : String) (rest : List String) :
    joinSlash (("/" ++ l) :: rest) = "/" ++ joinSlash (l :: rest) := by
  cases rest with
  | nil => rfl
  | cons x xs => simp [joinSlash, String.append_assoc]

theorem volumeLabel_stripColon_ne (t0 : String) (h : t0 ∈ volumeLabels) :
    stripColon t0 ≠ "" := by
  simp only [volumeLabels, List.mem_cons, List.not_mem_nil, or_false] at h
  rcases h with rfl | rfl | rfl | rfl | rfl
  · decide
  · decide
  · decide
  · decide
  · decide

/-! ### Claim theorems: pure components -/

/-- C3: the boot-config-update decision equals the logical OR of the two
inequalities — the boot variable is rewritten iff the running image's
path differs from the target path or its version differs from the target
version, for all four combinations of (path equal/unequal, version
equal/unequal). -/
theorem needs_new_boot_config_iff (r : RunningImage) (p v : String) :
    needs_new_boot_config r p v = true ↔ (r.path ≠ p ∨ r.version ≠ v) := by
  simp [needs_new_boot_config, bne_iff_ne]

/-- C7: for an input whose first `/`-separated segment is a recognized
volume label, `to_posix_path` returns the equivalent POSIX path rooted
at `/<label>` (the colon stripped); in particular
`to_posix_path "bootflash:/dir/file.bin" = "/bootflash/dir/file.bin"`;
for an unrecognized first segment it raises (modelled as `none`, the
script's `ValueError`, the spec's `InvalidPathError`).  The embedding is
a pure function, so freedom from side effects holds by construction. -/
theorem to_posix_path_translation :
    to_posix_path "bootflash:/dir/file.bin" = some "/bootflash/dir/file.bin" ∧
    to_posix_path "foo:/bar" = none ∧
    (∀ p t0 rest, splitOnSlash p = t0 :: rest → t0 ∉ volumeLabels →
      to_posix_path p = none) ∧
    (∀ p t0 rest, splitOnSlash p = t0 :: rest → t0 ∈ volumeLabels →
      ∃ tl, to_posix_path p = some ("/" ++ stripColon t0 ++ tl)) := by
  refine ⟨by decide, by decide, ?_, ?_⟩
  · intro p t0 rest hs hmem
    unfold to_posix_path
    rw [hs]
    simp [hmem]
  · intro p t0 rest hs hmem
    unfold to_posix_path
    rw [hs]
    dsimp only
    rw [if_pos hmem]
    cases hf : rest.filter (fun t => t ≠ "") with
    | nil => exact ⟨"", by simp [joinSlash]⟩
    | cons x xs =>
      exact ⟨"/" ++ joinSlash (x :: xs), by simp [joinSlash, String.append_assoc]⟩

/-- Witness for C7: a concrete unrecognized-prefix input hits the
`none` (`InvalidPathError`) branch. -/
theorem to_posix_path_translation_witness :
    splitOnSlash "foo:/bar" = ["foo:", "bar"] ∧ "foo:" ∉ volumeLabels ∧
      to_posix_path "foo:/bar" = none :=
  ⟨by decide, by decide,
    to_posix_path_translation.2.2.1 "foo:/bar" "foo:" ["bar"] (by decide) (by decide)⟩

/-- C10: `to_posix_path` drops empty segments, so consecutive and
trailing slashes are collapsed — `"bootflash:///file.bin"` and
`"bootflash:/file.bin"` both map to `"/bootflash/file.bin"`, and every
accepted input yields a path `/s1/s2/.../sn` whose segments are all
non-empty. -/
theorem to_posix_path_no_empty_segments :
    to_posix_path "bootflash:///file.bin" = some "/bootflash/file.bin" ∧
    to_posix_path "bootflash:/file.bin" = some "/bootflash/file.bin" ∧
    (∀ p r, to_posix_path p = some r →
      ∃ segs, segs ≠ [] ∧ (∀ s ∈ segs, s ≠ "") ∧ r = "/" ++ joinSlash segs) := by
  refine ⟨by decide, by decide, ?_⟩
  intro p r h
  unfold to_posix_path at h
  cases hs : splitOnSlash p with
  | nil => rw [hs] at h; cases h
  | cons t0 rest =>
    rw [hs] at h
    dsimp only at h
    by_cases hmem : t0 ∈ volumeLabels
    · rw [if_pos hmem] at h
      injection h with h
      refine ⟨stripColon t0 :: rest.filter (fun t => t ≠ ""), by simp, ?_, ?_⟩
      · intro s hsm
        rcases List.mem_cons.mp hsm with rfl | hsm2
        · exact volumeLabel_stripColon_ne t0 hmem
        · exact of_decide_eq_true (List.mem_filter.mp hsm2).2
      · rw [← h]
        exact joinSlash_slash_head _ _
    · rw [if_neg hmem] at h
      cases h

/-- Witness for C10: the general no-empty-segments shape at a concrete
input with doubled and trailing slashes. -/
theorem to_posix_path_no_empty_segments_witness :
    ∃ segs, segs ≠ [] ∧ (∀ s ∈ segs, s ≠ "") ∧
      "/bootflash/a/b" = "/" ++ joinSlash segs :=
  to_posix_path_no_empty_segments.2.2 "bootflash://a//b/" "/bootflash/a/b" (by decide)

/-- C8: for every password and fixed non-empty 10-byte salt,
`generate_type8_password` is deterministic (independent of the
`os.urandom` oracle), renders
`$nx-pbkdf2$<cisco-b64 salt>$<cisco-b64 (pbkdf2 pw salt 20000)>` where
the derived key is the PBKDF2-HMAC-SHA256 oracle's 32-byte output at
20000 iterations, and both encoded fields consist solely of
vendor-alphabet characters with no `=` padding. -/
theorem generate_type8_password_format
    (pbkdf2 : String → List Nat → Nat → List Nat) (u1 u2 : List Nat)
    (password : String) (salt : List Nat)
    (hne : salt ≠ []) (hlen : salt.length = 10)
    (hdk : (pbkdf2 password salt 20000).length = 32) :
    generate_type8_password pbkdf2 u1 password (some salt) =
        generate_type8_password pbkdf2 u2 password (some salt) ∧
    generate_type8_password pbkdf2 u1 password (some salt) =
      "$nx-pbkdf2$" ++ to_cisco_base64 salt ++ "$" ++
        to_cisco_base64 (pbkdf2 password salt 20000) ∧
    (∀ c ∈ (to_cisco_base64 salt).toList, c ∈ cisco_b64chars ∧ c ≠ '=') ∧
    (∀ c ∈ (to_cisco_base64 (pbkdf2 password salt 20000)).toList,
      c ∈ cisco_b64chars ∧ c ≠ '=') := by
  refine ⟨?_, ?_, ?_, ?_⟩
  · simp [generate_type8_password, effective_salt, hne]
  · simp [generate_type8_password, effective_salt, hne]
  · intro c hc
    exact ⟨to_cisco_base64_mem _ c hc,
      fun he => pad_not_mem_cisco (he ▸ to_cisco_base64_mem _ c hc)⟩
  · intro c hc
    exact ⟨to_cisco_base64_mem _ c hc,
      fun he => pad_not_mem_cisco (he ▸ to_cisco_base64_mem _ c hc)⟩

/-- Witness for C8 at a concrete salt and a concrete PBKDF2 oracle. -/
theorem generate_type8_password_format_witness :
    generate_type8_password (fun _ _ _ => List.replicate 32 0) [1] "pw"
        (some [0, 1, 2, 3, 4, 5, 6, 7, 8, 9]) =
      generate_type8_password (fun _ _ _ => List.replicate 32 0) [2] "pw"
        (some [0, 1, 2, 3, 4, 5, 6, 7, 8, 9]) ∧
    generate_type8_password (fun _ _ _ => List.replicate 32 0) [1] "pw"
        (some [0, 1, 2, 3, 4, 5, 6, 7, 8, 9]) =
      "$nx-pbkdf2$" ++ to_cisco_base64 [0, 1, 2, 3, 4, 5, 6, 7, 8, 9] ++ "$" ++
        to_cisco_base64 ((fun (_ : String) (_ : List Nat) (_ : Nat) =>
          List.replicate 32 0) "pw" [0, 1, 2, 3, 4, 5, 6, 7, 8, 9] 20000) ∧
    (∀ c ∈ (to_cisco_base64 [0, 1, 2, 3, 4, 5, 6, 7, 8, 9]).toList,
      c ∈ cisco_b64chars ∧ c ≠ '=') ∧
    (∀ c ∈ (to_cisco_base64 ((fun (_ : String) (_ : List Nat) (_ : Nat) =>
        List.replicate 32 0) "pw" [0, 1, 2, 3, 4, 5, 6, 7, 8, 9] 20000)).toList,
      c ∈ cisco_b64chars ∧ c ≠ '=') :=
  generate_type8_password_format (fun _ _ _ => List.replicate 32 0) [1] [2] "pw"
    [0, 1, 2, 3, 4, 5, 6, 7, 8, 9] (by decide) (by decide) (by decide)

/-- C9: the salt handling distinguishes only truthiness — `None` and the
empty byte string both trigger a fresh `os.urandom` salt, so an
explicitly supplied empty salt is not used and two calls with
`salt_bytes = b""` under different urandom draws differ; a non-empty
supplied salt is used as given. -/
theorem effective_salt_truthiness (u s : List Nat)
    (pbkdf2 : String → List Nat → Nat → List Nat) (password : String)
    (hs : s ≠ []) :
    effective_salt none u = u ∧
    effective_salt (some []) u = u ∧
    effective_salt (some s) u = s ∧
    generate_type8_password (fun _ _ _ => List.replicate 32 0)
        [0, 0, 0, 0, 0, 0, 0, 0, 0, 0] "pw" (some []) ≠
      generate_type8_password (fun _ _ _ => List.replicate 32 0)
        [1, 0, 0, 0, 0, 0, 0, 0, 0, 0] "pw" (some []) ∧
    generate_type8_password pbkdf2 u password (some s) =
      "$nx-pbkdf2$" ++ to_cisco_base64 s ++ "$" ++
        to_cisco_base64 (pbkdf2 password s 20000) := by
  refine ⟨rfl, by simp [effective_salt], by simp [effective_salt, hs], by decide,
    by simp [generate_type8_password, effective_salt, hs]⟩

/-- Witness for C9 at a concrete non-empty salt. -/
theorem effective_salt_truthiness_witness :
    effective_salt none [5] = [5] ∧
    effective_salt (some []) [5] = [5] ∧
    effective_salt (some [1, 2]) [5] = [1, 2] ∧
    generate_type8_password (fun _ _ _ => List.replicate 32 0)
        [0, 0, 0, 0, 0, 0, 0, 0, 0, 0] "pw" (some []) ≠
      generate_type8_password (fun _ _ _ => List.replicate 32 0)
        [1, 0, 0, 0, 0, 0, 0, 0, 0, 0] "pw" (some []) ∧
    generate_type8_password (fun _ _ _ => List.replicate 32 1) [5] "p2" (some [1, 2]) =
      "$nx-pbkdf2$" ++ to_cisco_base64 [1, 2] ++ "$" ++
        to_cisco_base64 ((fun (_ : String) (_ : List Nat) (_ : Nat) =>
          List.replicate 32 1) "p2" [1, 2] 20000) :=
  effective_salt_truthiness [5] [1, 2] (fun _ _ _ => List.replicate 32 1) "p2" (by decide)

/-! ### Model lemmas -/

theorem countTransfers_append (a b : List Event) :
    countTransfers (a ++ b) = countTransfers a + countTransfers b := by
  simp [countTransfers, List.filter_append]

theorem countDecisions_append (a b : List Event) :
    countDecisions (a ++ b) = countDecisions a + countDecisions b := by
  simp [countDecisions, List.filter_append]

/-- Exhaustive description of one `download_image` call. -/
theorem download_image_cases (env : Env) (e : String) (st : DLState) :
    (∃ m, st.fileMd5 = some m ∧
      download_image env e st =
        ([Event.checksumQuery m e], st,
          if m = e then DLResult.ok else DLResult.checksumErr)) ∨
    (st.fileMd5 = none ∧ env.transferOk st.transfers = true ∧
      download_image env e st =
        ([Event.transfer st.transfers, Event.checksumQuery (env.deliveredMd5 st.transfers) e],
          ⟨some (env.deliveredMd5 st.transfers), st.transfers + 1⟩,
          if env.deliveredMd5 st.transfers = e then DLResult.ok else DLResult.checksumErr)) ∨
    (st.fileMd5 = none ∧ env.transferOk st.transfers = false ∧
      download_image env e st =
        ([Event.transferFail st.transfers], ⟨none, st.transfers + 1⟩, DLResult.requestErr)) := by
  obtain ⟨f, tn⟩ := st
  cases f with
  | some m =>
    left
    refine ⟨m, rfl, ?_⟩
    by_cases he : m = e <;> simp [download_image, he]
  | none =>
    right
    by_cases ht : env.transferOk tn
    · left
      refine ⟨rfl, ht, ?_⟩
      by_cases he : env.deliveredMd5 tn = e <;> simp [download_image, ht, he]
    · right
      refine ⟨rfl, by simpa using ht, ?_⟩
      simp [download_image, ht]

/-- One `download_image` call performs at most one network transfer. -/
theorem dl_transfers_le (env : Env) (e : String) (st : DLState) :
    countTransfers (download_image env e st).1 ≤ 1 := by
  rcases download_image_cases env e st with ⟨m, _, h⟩ | ⟨_, _, h⟩ | ⟨_, _, h⟩ <;>
    rw [h] <;> simp [countTransfers, isTransfer]

/-- A verification that succeeds from an absent file performed exactly
one network transfer. -/
theorem dl_none_ok_transfers (env : Env) (e : String) (st : DLState)
    (hf : st.fileMd5 = none) (hok : (download_image env e st).2.2 = DLResult.ok) :
    countTransfers (download_image env e st).1 = 1 := by
  rcases download_image_cases env e st with ⟨m, hm, h⟩ | ⟨_, _, h⟩ | ⟨_, _, h⟩
  · rw [hm] at hf; cases hf
  · rw [h]; simp [countTransfers, isTransfer]
  · rw [h] at hok; cases hok

/-- A successful verification leaves the target file present with the
expected checksum. -/
theorem dl_ok_file (env : Env) (e : String) (st : DLState)
    (hok : (download_image env e st).2.2 = DLResult.ok) :
    (download_image env e st).2.1.fileMd5 = some e := by
  rcases download_image_cases env e st with ⟨m, hm, h⟩ | ⟨_, _, h⟩ | ⟨_, _, h⟩ <;> rw [h] at hok ⊢
  · by_cases he : m = e
    · rw [hm, he]
    · rw [if_neg he] at hok; cases hok
  · by_cases he : env.deliveredMd5 st.transfers = e
    · simp [he]
    · rw [if_neg he] at hok; cases hok
  · cases hok

/-- Download events are only transfers, transfer failures and checksum
queries: no deletions, decisions or reloads. -/
theorem dl_event_shape (env : Env) (e : String) (st : DLState) :
    ∀ x ∈ (download_image env e st).1, isTransfer x = true ∨
      (∃ k, x = Event.transferFail k) ∨ ∃ a b, x = Event.checksumQuery a b := by
  rcases download_image_cases env e st with ⟨m, _, h⟩ | ⟨_, _, h⟩ | ⟨_, _, h⟩ <;> rw [h] <;>
    intro x hx <;> simp only [List.mem_cons, List.not_mem_nil, or_false] at hx
  · rcases hx with rfl
    exact Or.inr (Or.inr ⟨m, e, rfl⟩)
  · rcases hx with rfl | rfl
    · exact Or.inl rfl
    · exact Or.inr (Or.inr ⟨_, e, rfl⟩)
  · rcases hx with rfl
    exact Or.inr (Or.inl ⟨_, rfl⟩)

theorem dl_no_retryDelete (env : Env) (e : String) (st : DLState) (p : String) :
    Event.retryDelete p ∉ (download_image env e st).1 := by
  intro hmem
  rcases dl_event_shape env e st _ hmem with h | ⟨k, h⟩ | ⟨a, b, h⟩ <;> simp [isTransfer] at h

theorem dl_no_decision (env : Env) (e : String) (st : DLState) :
    countDecisions (download_image env e st).1 = 0 := by
  rcases download_image_cases env e st with ⟨m, _, h⟩ | ⟨_, _, h⟩ | ⟨_, _, h⟩ <;>
    rw [h] <;> simp [countDecisions, isDecision]

theorem dl_no_reload (env : Env) (e : String) (st : DLState) :
    Event.reload ∉ (download_image env e st).1 := by
  intro hmem
  rcases dl_event_shape env e st _ hmem with h | ⟨k, h⟩ | ⟨a, b, h⟩ <;> simp [isTransfer] at h

/-- The retry-path deletion only happens when the raw target path
differs from the raw running path, and it removes the translated target
path. -/
theorem rp_retryDelete_mem (env : Env) (img : ImageConf) (t tp rpath p : String)
    (h : Event.retryDelete p ∈ (retryPolicy env img t tp rpath).1) :
    t ≠ rpath ∧ p = tp := by
  unfold retryPolicy at h
  rcases h1 : download_image env img.md5sum ⟨env.fileMd5, 0⟩ with ⟨ev1, st1, r1⟩
  rw [h1] at h
  cases r1 with
  | ok => exact absurd (h1 ▸ h) (dl_no_retryDelete env img.md5sum ⟨env.fileMd5, 0⟩ p)
  | requestErr => exact absurd (h1 ▸ h) (dl_no_retryDelete env img.md5sum ⟨env.fileMd5, 0⟩ p)
  | checksumErr =>
    dsimp only at h
    by_cases hg : t ≠ rpath
    · rw [if_pos hg] at h
      refine ⟨hg, ?_⟩
      rcases h2 : download_image env img.md5sum ⟨none, st1.transfers⟩ with ⟨ev2, st2, r2⟩
      rw [h2] at h
      have hev1 : Event.retryDelete p ∉ ev1 := by
        have := dl_no_retryDelete env img.md5sum ⟨env.fileMd5, 0⟩ p
        rw [h1] at this
        exact this
      have hev2 : Event.retryDelete p ∉ ev2 := by
        have := dl_no_retryDelete env img.md5sum ⟨none, st1.transfers⟩ p
        rw [h2] at this
        exact this
      cases r2 <;>
        · simp only [List.append_assoc, List.mem_append, List.mem_cons,
            List.not_mem_nil, or_false] at h
          rcases h with h | h | h
          · exact absurd h hev1
          · exact (Event.retryDelete.injEq p tp).mp h
          · exact absurd h hev2
    · rw [if_neg hg] at h
      exact absurd (h1 ▸ h) (dl_no_retryDelete env img.md5sum ⟨env.fileMd5, 0⟩ p)

theorem rp_no_decision (env : Env) (img : ImageConf) (t tp rpath : String) :
    countDecisions (retryPolicy env img t tp rpath).1 = 0 := by
  unfold retryPolicy
  rcases h1 : download_image env img.md5sum ⟨env.fileMd5, 0⟩ with ⟨ev1, st1, r1⟩
  have hd1 : countDecisions ev1 = 0 := by
    have := dl_no_decision env img.md5sum ⟨env.fileMd5, 0⟩
    rw [h1] at this
    exact this
  cases r1 with
  | ok => exact hd1
  | requestErr => exact hd1
  | checksumErr =>
    dsimp only
    by_cases hg : t ≠ rpath
    · rw [if_pos hg]
      rcases h2 : download_image env img.md5sum ⟨none, st1.transfers⟩ with ⟨ev2, st2, r2⟩
      have hd2 : countDecisions ev2 = 0 := by
        have := dl_no_decision env img.md5sum ⟨none, st1.transfers⟩
        rw [h2] at this
        exact this
      cases r2 <;>
        · rw [countDecisions_append, countDecisions_append, hd1, hd2]
          rfl
    · rw [if_neg hg]
      exact hd1

theorem rp_no_reload (env : Env) (img : ImageConf) (t tp rpath : String) :
    Event.reload ∉ (retryPolicy env img t tp rpath).1 := by
  unfold retryPolicy
  rcases h1 : download_image env img.md5sum ⟨env.fileMd5, 0⟩ with ⟨ev1, st1, r1⟩
  have hr1 : Event.reload ∉ ev1 := by
    have := dl_no_reload env img.md5sum ⟨env.fileMd5, 0⟩
    rw [h1] at this
    exact this
  cases r1 with
  | ok => exact hr1
  | requestErr => exact hr1
  | checksumErr =>
    dsimp only
    by_cases hg : t ≠ rpath
    · rw [if_pos hg]
      rcases h2 : download_image env img.md5sum ⟨none, st1.transfers⟩ with ⟨ev2, st2, r2⟩
      have hr2 : Event.reload ∉ ev2 := by
        have := dl_no_reload env img.md5sum ⟨none, st1.transfers⟩
        rw [h2] at this
        exact this
      cases r2 <;>
        · intro hmem
          simp only [List.append_assoc, List.mem_append, List.mem_cons,
            List.not_mem_nil, or_false] at hmem
          rcases hmem with h | h | h
          · exact hr1 h
          · cases h
          · exact hr2 h
    · rw [if_neg hg]
      exact hr1

theorem not_mem_of_countDecisions_zero (ev : List Event) (h : countDecisions ev = 0)
    (b : Bool) : Event.bootDecision b ∉ ev := by
  intro hm
  have hnil : ev.filter isDecision = [] := List.eq_nil_of_length_eq_zero h
  have hfalse := List.filter_eq_nil_iff.mp hnil _ hm
  simp [isDecision] at hfalse

/-- The post-download phase emits exactly one boot-config decision. -/
theorem pd_decision_count (env : Env) (r : RunningImage) (img : ImageConf) (t : String) :
    countDecisions (postDownload env r img t).1 = 1 := by
  unfold postDownload
  rcases env.copyErr with _ | msg
  · rcases env.showStartupErr with _ | msg2
    · by_cases hb : needs_new_boot_config r t img.version <;>
        simp [hb, countDecisions, isDecision, List.filter]
    · by_cases hs : strContains msg2 noStartupMsg <;>
        by_cases hb : needs_new_boot_config r t img.version <;>
          simp [hs, hb, countDecisions, isDecision, List.filter]
  · by_cases hb : needs_new_boot_config r t img.version <;>
      simp [hb, countDecisions, isDecision, List.filter]

/-- Shape of the post-download event list: the boot-config decision,
carrying the metadata predicate's value, followed by decision-free
events. -/
theorem pd_shape (env : Env) (r : RunningImage) (img : ImageConf) (t : String) :
    ∃ tail, (postDownload env r img t).1 =
        Event.bootDecision (needs_new_boot_config r t img.version) :: tail ∧
      ∀ b, Event.bootDecision b ∉ tail := by
  obtain ⟨b0, f0, tk0, dm0, c0, s0⟩ := env
  unfold postDownload
  cases c0 with
  | some msg =>
    exact ⟨_, rfl,
      fun b => by by_cases hb : needs_new_boot_config r t img.version <;> simp [hb]⟩
  | none =>
    cases s0 with
    | none =>
      exact ⟨_, rfl,
        fun b => by by_cases hb : needs_new_boot_config r t img.version <;> simp [hb]⟩
    | some msg2 =>
      dsimp only
      by_cases hs : strContains msg2 noStartupMsg
      · rw [if_pos hs]
        exact ⟨_, rfl,
          fun b => by by_cases hb : needs_new_boot_config r t img.version <;> simp [hb]⟩
      · rw [if_neg hs]
        exact ⟨_, rfl,
          fun b => by by_cases hb : needs_new_boot_config r t img.version <;> simp [hb]⟩

/-- Any decision event the post-download phase emits carries exactly the
metadata predicate's value. -/
theorem pd_decision_mem (env : Env) (r : RunningImage) (img : ImageConf) (t : String)
    (b : Bool) (h : Event.bootDecision b ∈ (postDownload env r img t).1) :
    b = needs_new_boot_config r t img.version := by
  obtain ⟨tail, hsh, hnm⟩ := pd_shape env r img t
  rw [hsh] at h
  rcases List.mem_cons.mp h with he | hm
  · exact (Event.bootDecision.injEq _ _).mp he
  · exact absurd hm (hnm b)

/-- The post-download phase performs no network transfer. -/
theorem pd_no_transfer (env : Env) (r : RunningImage) (img : ImageConf) (t : String) :
    countTransfers (postDownload env r img t).1 = 0 := by
  unfold postDownload
  rcases env.copyErr with _ | msg
  · rcases env.showStartupErr with _ | msg2
    · by_cases hb : needs_new_boot_config r t img.version <;>
        simp [hb, countTransfers, isTransfer, List.filter]
    · by_cases hs : strContains msg2 noStartupMsg <;>
        by_cases hb : needs_new_boot_config r t img.version <;>
          simp [hs, hb, countTransfers, isTransfer, List.filter]
  · by_cases hb : needs_new_boot_config r t img.version <;>
      simp [hb, countTransfers, isTransfer, List.filter]

/-- The post-download phase never deletes a file. -/
theorem pd_no_retryDelete (env : Env) (r : RunningImage) (img : ImageConf) (t p : String) :
    Event.retryDelete p ∉ (postDownload env r img t).1 := by
  unfold postDownload
  rcases env.copyErr with _ | msg
  · rcases env.showStartupErr with _ | msg2
    · by_cases hb : needs_new_boot_config r t img.version <;> simp [hb]
    · by_cases hs : strContains msg2 noStartupMsg <;>
        by_cases hb : needs_new_boot_config r t img.version <;> simp [hs, hb]
  · by_cases hb : needs_new_boot_config r t img.version <;> simp [hb]

/-- A failing persistence `copy` aborts the run: `exit(1)`, no reload. -/
theorem pd_copy_fail (env : Env) (r : RunningImage) (img : ImageConf) (t msg : String)
    (hc : env.copyErr = some msg) :
    (postDownload env r img t).2 = Outcome.exit1 ∧
      Event.errCopy msg ∈ (postDownload env r img t).1 ∧
      Event.reload ∉ (postDownload env r img t).1 := by
  unfold postDownload
  rw [hc]
  by_cases hb : needs_new_boot_config r t img.version <;> simp [hb]

/-- With the persistence `copy` succeeding, the run reloads and ends
normally. -/
theorem pd_copy_ok (env : Env) (r : RunningImage) (img : ImageConf) (t : String)
    (hc : env.copyErr = none) :
    Event.reload ∈ (postDownload env r img t).1 ∧
      (postDownload env r img t).2 = Outcome.ok := by
  unfold postDownload
  rw [hc]
  rcases env.showStartupErr with _ | msg2
  · by_cases hb : needs_new_boot_config r t img.version <;> simp [hb]
  · by_cases hs : strContains msg2 noStartupMsg <;>
      by_cases hb : needs_new_boot_config r t img.version <;> simp [hs, hb]

/-! ### Claim theorems: orchestrator -/

/-- C6: if the target file is already present, `download_image` performs
no network transfer and goes straight to the checksum comparison (first
conjunct: the call is exactly one checksum query against the file's
current content, with the engine state unchanged); consequently, after a
successful verification a second call performs no transfer and returns
the same verified outcome, the checksum obtained and compared again
(second conjunct). -/
theorem download_image_idempotent (env : Env) (expected : String) (st : DLState)
    (m : String) :
    (st.fileMd5 = some m →
      download_image env expected st =
        ([Event.checksumQuery m expected], st,
          if m = expected then DLResult.ok else DLResult.checksumErr) ∧
      countTransfers (download_image env expected st).1 = 0) ∧
    ((download_image env expected st).2.2 = DLResult.ok →
      download_image env expected (download_image env expected st).2.1 =
        ([Event.checksumQuery expected expected],
          (download_image env expected st).2.1, DLResult.ok)) := by
  constructor
  · intro hf
    obtain ⟨f, tn⟩ := st
    cases hf
    constructor
    · by_cases he : m = expected <;> simp [download_image, he]
    · by_cases he : m = expected <;> simp [download_image, he, countTransfers, isTransfer]
  · intro hok
    have hfile := dl_ok_file env expected st hok
    rcases hst : (download_image env expected st).2.1 with ⟨f2, tn2⟩
    rw [hst] at hfile
    simp only at hfile
    rw [hfile]
    simp [download_image]

/-- Witness for C6 at a concrete environment with the file present and
matching. -/
theorem download_image_idempotent_witness :
    download_image (Env.mk true (some "g") (fun _ => true) (fun _ => "g") none none) "g"
        ⟨some "g", 0⟩ =
      ([Event.checksumQuery "g" "g"], (⟨some "g", 0⟩ : DLState),
        if "g" = "g" then DLResult.ok else DLResult.checksumErr) ∧
    download_image (Env.mk true (some "g") (fun _ => true) (fun _ => "g") none none) "g"
        (download_image (Env.mk true (some "g") (fun _ => true) (fun _ => "g") none none)
          "g" ⟨some "g", 0⟩).2.1 =
      ([Event.checksumQuery "g" "g"],
        (download_image (Env.mk true (some "g") (fun _ => true) (fun _ => "g") none none)
          "g" ⟨some "g", 0⟩).2.1, DLResult.ok) :=
  ⟨((download_image_idempotent
      (Env.mk true (some "g") (fun _ => true) (fun _ => "g") none none) "g"
      ⟨some "g", 0⟩ "g").1 rfl).1,
    (download_image_idempotent
      (Env.mk true (some "g") (fun _ => true) (fun _ => "g") none none) "g"
      ⟨some "g", 0⟩ "g").2 (by decide)⟩

/-- C1 counterexample: the retry-path deletion guard compares the raw
path strings, so with running image path `bootflash:/x.bin` and target
`bootflash:///x.bin` (raw-unequal, same file after translation) a
checksum mismatch makes the run delete `/bootflash/x.bin` — exactly the
translated path of the file the device booted from. -/
theorem retry_delete_hits_running_image :
    Event.retryDelete "/bootflash/x.bin" ∈
      (runMain (Env.mk true (some "bad") (fun _ => true) (fun _ => "good") none none)
        ⟨"9.9", "bootflash:/x.bin"⟩ ⟨"10.4", "http://h/x.bin", "good"⟩).1 ∧
    to_posix_path "bootflash:/x.bin" = some "/bootflash/x.bin" := by
  constructor
  · decide
  · decide

/-- C1 amended: every retry-path deletion is guarded by inequality of
the raw (untranslated) path strings — whenever `retryDelete p` occurs,
the raw target path differs from the raw running path and `p` is the
translated target path.  Equality of the translated paths is not
checked, which is what the counterexample exploits. -/
theorem retry_delete_raw_guard (env : Env) (r : RunningImage) (img : ImageConf)
    (p : String) (h : Event.retryDelete p ∈ (runMain env r img).1) :
    targetImagePath img.url ≠ r.path ∧
      to_posix_path (targetImagePath img.url) = some p := by
  unfold runMain at h
  by_cases hb : env.bootstrapOk
  · rw [if_pos hb] at h
    rcases hrp : to_posix_path r.path with _ | rp <;> rw [hrp] at h <;>
      rcases htp : to_posix_path (targetImagePath img.url) with _ | tp <;>
        rw [htp] at h <;> dsimp only at h
    · cases h
    · cases h
    · cases h
    · rcases hres : retryPolicy env img (targetImagePath img.url) tp r.path with ⟨ev, cont⟩
      rw [hres] at h
      have hmem : Event.retryDelete p ∈ ev := by
        cases cont <;> dsimp only at h <;>
          · rcases List.mem_cons.mp h with he | hm
            · cases he
            · first
                | exact hm
                | { rcases List.mem_append.mp hm with h2 | h2
                    · exact h2
                    · exact absurd h2 (pd_no_retryDelete env r img (targetImagePath img.url) p) }
      have := rp_retryDelete_mem env img (targetImagePath img.url) tp r.path p
        (by rw [hres]; exact hmem)
      exact ⟨this.1, congrArg some this.2.symm⟩
  · rw [if_neg hb] at h
    simp at h

/-- Witness for the amended C1 at a run that actually deletes. -/
theorem retry_delete_raw_guard_witness :
    targetImagePath "http://h/x.bin" ≠ "bootflash:/run.bin" ∧
      to_posix_path (targetImagePath "http://h/x.bin") = some "/bootflash/x.bin" :=
  retry_delete_raw_guard
    (Env.mk true (some "bad") (fun _ => true) (fun _ => "good") none none)
    ⟨"9.9", "bootflash:/run.bin"⟩ ⟨"10.4", "http://h/x.bin", "good"⟩
    "/bootflash/x.bin" (by decide)

/-- C4 counterexample: in a concrete successful run the first (and only)
network transfer sits at trace index 1 while the boot-config decision
sits at index 3 — the decision is evaluated after the download, not
before it; and in a concrete run whose retry also mismatches, the
decision is never evaluated at all, so it is not evaluated "exactly
once, before any download" in every provisioning run. -/
theorem boot_decision_not_before_download :
    countDecisions (runMain (Env.mk true none (fun _ => true) (fun _ => "good") none none)
      ⟨"9.9", "bootflash:/run.bin"⟩ ⟨"10.4", "http://h/x.bin", "good"⟩).1 = 1 ∧
    countTransfers (runMain (Env.mk true none (fun _ => true) (fun _ => "good") none none)
      ⟨"9.9", "bootflash:/run.bin"⟩ ⟨"10.4", "http://h/x.bin", "good"⟩).1 = 1 ∧
    firstTransferIdx (runMain (Env.mk true none (fun _ => true) (fun _ => "good") none none)
      ⟨"9.9", "bootflash:/run.bin"⟩ ⟨"10.4", "http://h/x.bin", "good"⟩).1 = some 1 ∧
    firstDecisionIdx (runMain (Env.mk true none (fun _ => true) (fun _ => "good") none none)
      ⟨"9.9", "bootflash:/run.bin"⟩ ⟨"10.4", "http://h/x.bin", "good"⟩).1 = some 3 ∧
    countDecisions (runMain (Env.mk true none (fun _ => true) (fun _ => "bad") none none)
      ⟨"9.9", "bootflash:/run.bin"⟩ ⟨"10.4", "http://h/x.bin", "good"⟩).1 = 0 := by
  decide

/-- C4 amended: whenever the boot-config decision is evaluated it is
evaluated exactly once in that run, and its value is the pure metadata
predicate of the running image and the descriptor (path and version
only) — no file I/O influences it.  (Its position, however, is after
the download phase, per the counterexample.) -/
theorem boot_decision_value_unique (env : Env) (r : RunningImage) (img : ImageConf)
    (b : Bool) (h : Event.bootDecision b ∈ (runMain env r img).1) :
    b = needs_new_boot_config r (targetImagePath img.url) img.version ∧
      countDecisions (runMain env r img).1 = 1 := by
  unfold runMain at h ⊢
  by_cases hb : env.bootstrapOk
  · rw [if_pos hb] at h ⊢
    revert h
    rcases hrp : to_posix_path r.path with _ | rp <;>
      rcases htp : to_posix_path (targetImagePath img.url) with _ | tp <;>
        dsimp only <;> intro h
    · cases h
    · cases h
    · cases h
    · revert h
      rcases hres : retryPolicy env img (targetImagePath img.url) tp r.path with ⟨ev, cont⟩
      have hrd0 : countDecisions ev = 0 := by
        have := rp_no_decision env img (targetImagePath img.url) tp r.path
        rw [hres] at this
        exact this
      cases cont <;> dsimp only <;> intro h
      · rcases List.mem_cons.mp h with he | hm
        · cases he
        · exact absurd hm (not_mem_of_countDecisions_zero ev hrd0 b)
      · rcases List.mem_cons.mp h with he | hm
        · cases he
        · rcases List.mem_append.mp hm with h2 | h2
          · exact absurd h2 (not_mem_of_countDecisions_zero ev hrd0 b)
          · refine ⟨pd_decision_mem env r img (targetImagePath img.url) b h2, ?_⟩
            have hsplit : (Event.cleanImages rp tp :: ev) ++
                (postDownload env r img (targetImagePath img.url)).1 =
                [Event.cleanImages rp tp] ++ ev ++
                  (postDownload env r img (targetImagePath img.url)).1 := rfl
            rw [hsplit, countDecisions_append, countDecisions_append, hrd0,
              pd_decision_count]
            rfl
  · rw [if_neg hb] at h
    simp at h

/-- Witness for the amended C4 at a concrete successful run. -/
theorem boot_decision_value_unique_witness :
    true = needs_new_boot_config ⟨"9.9", "bootflash:/run.bin"⟩
        (targetImagePath "http://h/x.bin") "10.4" ∧
      countDecisions (runMain (Env.mk true none (fun _ => true) (fun _ => "good") none none)
        ⟨"9.9", "bootflash:/run.bin"⟩ ⟨"10.4", "http://h/x.bin", "good"⟩).1 = 1 :=
  boot_decision_value_unique
    (Env.mk true none (fun _ => true) (fun _ => "good") none none)
    ⟨"9.9", "bootflash:/run.bin"⟩ ⟨"10.4", "http://h/x.bin", "good"⟩ true (by decide)

/-- C5 counterexample: a failure of the persistence `copy
running-config startup-config` — even one whose message contains
"No startup configuration found" — is logged and terminates the process
with exit 1; the reload is never reached.  So command-execution errors
with that message are not always informational, and persistence
failures do not let the process continue. -/
theorem copy_failure_is_fatal :
    runMain (Env.mk true (some "good") (fun _ => true) (fun _ => "good")
        (some "No startup configuration found") none)
      ⟨"9.9", "bootflash:/run.bin"⟩ ⟨"10.4", "http://h/x.bin", "good"⟩ =
    ([Event.cleanImages "/bootflash/run.bin" "/bootflash/x.bin",
      Event.checksumQuery "good" "good", Event.bootDecision true,
      Event.setBoot "bootflash:///x.bin", Event.copyStartupBoot, Event.applyConfig,
      Event.errCopy "No startup configuration found"], Outcome.exit1) := by
  decide

/-- C5 amended: during the `show startup-config` status check, an error
whose message contains "No startup configuration found" is a warning and
any other error is logged, and in both cases the run continues and
reloads with outcome ok; a failure of the persistence `copy` itself,
regardless of message, ends the run with exit 1 and no reload ever
occurs in that run. -/
theorem persistence_phase_behavior (env : Env) (r : RunningImage) (img : ImageConf)
    (t msg : String) :
    (env.copyErr = some msg →
      (postDownload env r img t).2 = Outcome.exit1 ∧
      Event.errCopy msg ∈ (postDownload env r img t).1 ∧
      Event.reload ∉ (postDownload env r img t).1 ∧
      Event.reload ∉ (runMain env r img).1) ∧
    (env.copyErr = none → env.showStartupErr = some msg →
      strContains msg noStartupMsg = true →
      Event.warnNoStartup ∈ (postDownload env r img t).1 ∧
      Event.reload ∈ (postDownload env r img t).1 ∧
      (postDownload env r img t).2 = Outcome.ok) ∧
    (env.copyErr = none → env.showStartupErr = some msg →
      strContains msg noStartupMsg = false →
      Event.errShowStartup msg ∈ (postDownload env r img t).1 ∧
      Event.reload ∈ (postDownload env r img t).1 ∧
      (postDownload env r img t).2 = Outcome.ok) := by
  refine ⟨?_, ?_, ?_⟩
  · intro hc
    obtain ⟨h1, h2, h3⟩ := pd_copy_fail env r img t msg hc
    refine ⟨h1, h2, h3, ?_⟩
    unfold runMain
    by_cases hb : env.bootstrapOk
    · rw [if_pos hb]
      rcases hrp : to_posix_path r.path with _ | rp <;>
        rcases htp : to_posix_path (targetImagePath img.url) with _ | tp <;>
          dsimp only
      · simp
      · simp
      · simp
      · rcases hres : retryPolicy env img (targetImagePath img.url) tp r.path
          with ⟨ev, cont⟩
        have hev : Event.reload ∉ ev := by
          have := rp_no_reload env img (targetImagePath img.url) tp r.path
          rw [hres] at this
          exact this
        cases cont <;> dsimp only <;> intro hm
        · rcases List.mem_cons.mp hm with he | hm2
          · cases he
          · exact hev hm2
        · rcases List.mem_cons.mp hm with he | hm2
          · cases he
          · rcases List.mem_append.mp hm2 with h4 | h4
            · exact hev h4
            · exact (pd_copy_fail env r img (targetImagePath img.url) msg hc).2.2 h4
    · rw [if_neg hb]
      simp
  · intro hc hs hcont
    unfold postDownload
    rw [hc, hs]
    dsimp only
    rw [if_pos hcont]
    by_cases hbd : needs_new_boot_config r t img.version <;> simp [hbd]
  · intro hc hs hcont
    unfold postDownload
    rw [hc, hs]
    dsimp only
    rw [if_neg (by simp [hcont])]
    by_cases hbd : needs_new_boot_config r t img.version <;> simp [hbd]

/-- Witness for the amended C5: a failing persistence copy at a concrete
environment. -/
theorem persistence_phase_behavior_witness :
    (postDownload (Env.mk true (some "good") (fun _ => true) (fun _ => "good")
        (some "boom") none) ⟨"9.9", "bootflash:/run.bin"⟩
        ⟨"10.4", "http://h/x.bin", "good"⟩ "bootflash:///x.bin").2 = Outcome.exit1 ∧
    Event.errCopy "boom" ∈ (postDownload (Env.mk true (some "good") (fun _ => true)
        (fun _ => "good") (some "boom") none) ⟨"9.9", "bootflash:/run.bin"⟩
        ⟨"10.4", "http://h/x.bin", "good"⟩ "bootflash:///x.bin").1 ∧
    Event.reload ∉ (postDownload (Env.mk true (some "good") (fun _ => true)
        (fun _ => "good") (some "boom") none) ⟨"9.9", "bootflash:/run.bin"⟩
        ⟨"10.4", "http://h/x.bin", "good"⟩ "bootflash:///x.bin").1 ∧
    Event.reload ∉ (runMain (Env.mk true (some "good") (fun _ => true)
        (fun _ => "good") (some "boom") none) ⟨"9.9", "bootflash:/run.bin"⟩
        ⟨"10.4", "http://h/x.bin", "good"⟩).1 :=
  (persistence_phase_behavior
    (Env.mk true (some "good") (fun _ => true) (fun _ => "good") (some "boom") none)
    ⟨"9.9", "bootflash:/run.bin"⟩ ⟨"10.4", "http://h/x.bin", "good"⟩
    "bootflash:///x.bin" "boom").1 rfl

/-- C2 counterexample: with the target path raw-equal to the running
image's path, a checksum mismatch is caught, logged, and then swallowed:
no retry happens and the run proceeds to configuration and succeeds,
although no successful verification ever took place (the only checksum
query reported "bad" against expected "good" and no transfer occurred).
The mismatch is neither recovered by a retry nor fatal. -/
theorem checksum_mismatch_swallowed :
    runMain (Env.mk true (some "bad") (fun _ => true) (fun _ => "good") none none)
      ⟨"9.9", "bootflash:///x.bin"⟩ ⟨"10.4", "http://h/x.bin", "good"⟩ =
    ([Event.cleanImages "/bootflash/x.bin" "/bootflash/x.bin",
      Event.checksumQuery "bad" "good", Event.bootDecision true,
      Event.setBoot "bootflash:///x.bin", Event.copyStartupBoot, Event.applyConfig,
      Event.copyStartupOk, Event.showStartupOk, Event.reload], Outcome.ok) := by
  decide

/-- C2 amended: when the first `download_image` call raises
`ChecksumError` and the raw target path differs from the raw running
path, the corrupt file is deleted and exactly one more attempt is made:
if that attempt verifies, exactly one re-download occurred and the run
continues into the post-download phase; if it mismatches again, the run
exits 1 with at most two transfers in total and no third attempt.  When
the raw target path equals the raw running path, however, the mismatch
is swallowed: no deletion, no retry, and the run continues to
configuration without a successful verification. -/
theorem checksum_retry_once (env : Env) (r : RunningImage) (img : ImageConf)
    (rp tp : String) (ev1 : List Event) (st1 : DLState)
    (hb : env.bootstrapOk = true)
    (hrp : to_posix_path r.path = some rp)
    (htp : to_posix_path (targetImagePath img.url) = some tp)
    (hfst : download_image env img.md5sum ⟨env.fileMd5, 0⟩ =
      (ev1, st1, DLResult.checksumErr)) :
    (∀ ev2 st2, targetImagePath img.url ≠ r.path →
      download_image env img.md5sum ⟨none, st1.transfers⟩ = (ev2, st2, DLResult.ok) →
      countTransfers ev2 = 1 ∧
      runMain env r img =
        (Event.cleanImages rp tp :: ev1 ++ [Event.retryDelete tp] ++ ev2
            ++ (postDownload env r img (targetImagePath img.url)).1,
          (postDownload env r img (targetImagePath img.url)).2)) ∧
    (∀ ev2 st2, targetImagePath img.url ≠ r.path →
      download_image env img.md5sum ⟨none, st1.transfers⟩ =
        (ev2, st2, DLResult.checksumErr) →
      runMain env r img =
        (Event.cleanImages rp tp :: ev1 ++ [Event.retryDelete tp] ++ ev2,
          Outcome.exit1) ∧
      countTransfers (runMain env r img).1 ≤ 2) ∧
    (targetImagePath img.url = r.path →
      runMain env r img =
        (Event.cleanImages rp tp :: ev1
            ++ (postDownload env r img (targetImagePath img.url)).1,
          (postDownload env r img (targetImagePath img.url)).2) ∧
      Event.retryDelete tp ∉ (runMain env r img).1 ∧
      countTransfers (runMain env r img).1 ≤ 1) := by
  have hc1 : countTransfers ev1 ≤ 1 := by
    have := dl_transfers_le env img.md5sum ⟨env.fileMd5, 0⟩
    rw [hfst] at this
    exact this
  refine ⟨?_, ?_, ?_⟩
  · intro ev2 st2 hne hsnd
    have hrpol : retryPolicy env img (targetImagePath img.url) tp r.path =
        (ev1 ++ [Event.retryDelete tp] ++ ev2, true) := by
      unfold retryPolicy
      rw [hfst]
      dsimp only
      rw [if_pos hne, hsnd]
    have hcnt : countTransfers ev2 = 1 := by
      have := dl_none_ok_transfers env img.md5sum ⟨none, st1.transfers⟩ rfl
        (by rw [hsnd])
      rw [hsnd] at this
      exact this
    refine ⟨hcnt, ?_⟩
    unfold runMain
    rw [if_pos hb, hrp, htp]
    dsimp only
    rw [hrpol]
    rfl
  · intro ev2 st2 hne hsnd
    have hrpol : retryPolicy env img (targetImagePath img.url) tp r.path =
        (ev1 ++ [Event.retryDelete tp] ++ ev2, false) := by
      unfold retryPolicy
      rw [hfst]
      dsimp only
      rw [if_pos hne, hsnd]
    have hc2 : countTransfers ev2 ≤ 1 := by
      have := dl_transfers_le env img.md5sum ⟨none, st1.transfers⟩
      rw [hsnd] at this
      exact this
    have hmain : runMain env r img =
        (Event.cleanImages rp tp :: ev1 ++ [Event.retryDelete tp] ++ ev2,
          Outcome.exit1) := by
      unfold runMain
      rw [if_pos hb, hrp, htp]
      dsimp only
      rw [hrpol]
      rfl
    refine ⟨hmain, ?_⟩
    rw [hmain]
    have hsplit : (Event.cleanImages rp tp :: ev1 ++ [Event.retryDelete tp] ++ ev2 :
          List Event) =
        [Event.cleanImages rp tp] ++ ev1 ++ [Event.retryDelete tp] ++ ev2 := rfl
    rw [hsplit, countTransfers_append, countTransfers_append, countTransfers_append]
    have e0 : countTransfers [Event.cleanImages rp tp] = 0 := rfl
    have e1 : countTransfers [Event.retryDelete tp] = 0 := rfl
    omega
  · intro heq
    have hrpol : retryPolicy env img (targetImagePath img.url) tp r.path =
        (ev1, true) := by
      unfold retryPolicy
      rw [hfst]
      dsimp only
      rw [if_neg (by simp [heq])]
    have hmain : runMain env r img =
        (Event.cleanImages rp tp :: ev1
            ++ (postDownload env r img (targetImagePath img.url)).1,
          (postDownload env r img (targetImagePath img.url)).2) := by
      unfold runMain
      rw [if_pos hb, hrp, htp]
      dsimp only
      rw [hrpol]
    have hnd : Event.retryDelete tp ∉ ev1 := by
      have := dl_no_retryDelete env img.md5sum ⟨env.fileMd5, 0⟩ tp
      rw [hfst] at this
      exact this
    refine ⟨hmain, ?_, ?_⟩
    · rw [hmain]
      intro hm
      rcases List.mem_cons.mp hm with he | hm2
      · cases he
      · rcases List.mem_append.mp hm2 with h4 | h4
        · exact hnd h4
        · exact pd_no_retryDelete env r img (targetImagePath img.url) tp h4
    · rw [hmain]
      have hsplit : ((Event.cleanImages rp tp :: ev1
            ++ (postDownload env r img (targetImagePath img.url)).1, 
            (postDownload env r img (targetImagePath img.url)).2).1 :
          List Event) =
        [Event.cleanImages rp tp] ++ ev1
            ++ (postDownload env r img (targetImagePath img.url)).1 := rfl
      rw [hsplit, countTransfers_append, countTransfers_append]
      have e0 : countTransfers [Event.cleanImages rp tp] = 0 := rfl
      have e2 := pd_no_transfer env r img (targetImagePath img.url)
      omega

/-- Witness for the amended C2: a concrete run whose first attempt
mismatches and whose retry verifies. -/
theorem checksum_retry_once_witness :
    countTransfers [Event.transfer 1, Event.checksumQuery "good" "good"] = 1 ∧
    runMain (Env.mk true none (fun _ => true)
        (fun k => if k = 0 then "bad" else "good") none none)
      ⟨"9.9", "bootflash:/run.bin"⟩ ⟨"10.4", "http://h/x.bin", "good"⟩ =
      (Event.cleanImages "/bootflash/run.bin" "/bootflash/x.bin" ::
          [Event.transfer 0, Event.checksumQuery "bad" "good"]
          ++ [Event.retryDelete "/bootflash/x.bin"]
          ++ [Event.transfer 1, Event.checksumQuery "good" "good"]
          ++ (postDownload (Env.mk true none (fun _ => true)
              (fun k => if k = 0 then "bad" else "good") none none)
            ⟨"9.9", "bootflash:/run.bin"⟩ ⟨"10.4", "http://h/x.bin", "good"⟩
            (targetImagePath "http://h/x.bin")).1,
        (postDownload (Env.mk true none (fun _ => true)
            (fun k => if k = 0 then "bad" else "good") none none)
          ⟨"9.9", "bootflash:/run.bin"⟩ ⟨"10.4", "http://h/x.bin", "good"⟩
          (targetImagePath "http://h/x.bin")).2) :=
  (checksum_retry_once
    (Env.mk true none (fun _ => true) (fun k => if k = 0 then "bad" else "good")
      none none)
    ⟨"9.9", "bootflash:/run.bin"⟩ ⟨"10.4", "http://h/x.bin", "good"⟩
    "/bootflash/run.bin" "/bootflash/x.bin"
    [Event.transfer 0, Event.checksumQuery "bad" "good"] ⟨some "bad", 1⟩
    rfl (by decide) (by decide) (by decide)).1
    [Event.transfer 1, Event.checksumQuery "good" "good"] ⟨some "good", 2⟩
    (by decide) (by decide)

end Nxos
